import Mathlib

/-!
Verification development for the esi-html-rewriter engine.

The engine is embedded shallowly from the TypeScript source:

* the current implementation (the `Esi` class: `parseResponse`, `fetch`,
  `hasEsiSurrogateControl`, `hasAllowedContentType`, `addSurrogateCapability`,
  `matchesUrlPattern` over `URLPattern[]`, `shouldDelegateToSurrogate`), and
* the earlier `parseEsi` / `processEsiResponse` variant (src/index.ts,
  src/esi-parser.ts), whose `matchesUrlPattern` also accepts plain-string
  patterns and whose call site skips the check for an empty or unset list.

Host primitives are modelled explicitly:

* JS `Headers` as an association list with case-insensitive names;
* the WHATWG `URL` / `URLPattern` machinery as an abstract `UrlApi` record
  (parse, relative resolution, pattern compilation), with a small concrete
  instance used for witnesses;
* `HTMLRewriter` as a traversal of a structured body: the body of a response
  is the sequence of text chunks and include elements the rewriter observes
  (the `shim` tag-renaming option only changes the selector spelling, not
  which elements are handled, and is not modelled);
* the global `fetch` as a deterministic environment `Request → Response`,
  with every network call recorded in an event trace, alongside every
  invocation of the error handler.

Asynchrony is flattened: callbacks are awaited in document order, which is
exactly the ordering guarantee HTMLRewriter provides.
-/

/-- JS ASCII whitespace (model of the characters `\s` and `trim` treat as
whitespace; the unicode cases are not needed for any claim). -/
def isWsChar (c : Char) : Bool :=
  c = ' ' || c = '\t' || c = '\n' || c = '\r' || c = '\x0b' || c = '\x0c'

/-- ASCII lower-casing of one character (model of JS `toLowerCase`). -/
def lcChar (c : Char) : Char :=
  if 'A' ≤ c ∧ c ≤ 'Z' then Char.ofNat (c.toNat + 32) else c

/-- ASCII lower-casing of a string (model of JS `toLowerCase`). -/
def lcStr (s : String) : String :=
  String.mk (s.data.map lcChar)

/-- JS `String.prototype.trim` (ASCII model). -/
def jsTrim (s : String) : String :=
  String.mk (((s.data.dropWhile isWsChar).reverse.dropWhile isWsChar).reverse)

/-- `contentType.split(";")[0]`: the substring before the first `;`
(the whole string when there is no `;`). -/
def beforeSemi (s : String) : String :=
  String.mk (s.data.takeWhile (fun c => c ≠ ';'))

/-- JS `s.replace("*", "")`: remove the first `*` (only the first --
`String.prototype.replace` with a string pattern replaces one occurrence). -/
def removeFirstStar : List Char → List Char
  | [] => []
  | c :: rest => if c = '*' then rest else c :: removeFirstStar rest

/-- `pattern.replace("*", "")` on strings. -/
def replaceFirstStar (s : String) : String :=
  String.mk (removeFirstStar s.data)

/-- JS `url.startsWith(prefixString)` (code-unit prefix test). -/
def jsStartsWith (s p : String) : Bool :=
  p.data.isPrefixOf s.data

/-- Header map: association list of (name, value); JS `Headers` name lookup
is case-insensitive. -/
abbrev HeaderMap := List (String × String)

/-- `headers.get(name)` (case-insensitive name match). -/
def headerGet (h : HeaderMap) (name : String) : Option String :=
  (h.find? (fun p => lcStr p.1 == lcStr name)).map (fun p => p.2)

/-- `headers.set(name, value)`: replace any entry with that name. -/
def headersSet (h : HeaderMap) (name value : String) : HeaderMap :=
  (h.filter (fun p => lcStr p.1 != lcStr name)) ++ [(name, value)]

/-- `headers.delete(name)`. -/
def headersDelete (h : HeaderMap) (name : String) : HeaderMap :=
  h.filter (fun p => lcStr p.1 != lcStr name)

/-- One node of a response body as seen by the HTMLRewriter traversal:
literal markup, or an include element (`esi:include`, or its shimmed
spelling) carrying an optional `src` attribute. -/
inductive Item where
  | text (s : String)
  | includeTag (src : Option String)
deriving DecidableEq, Repr

/-- Model of a fetch `Request`: the URL and the headers. -/
structure Request where
  url : String
  headers : HeaderMap
deriving DecidableEq, Repr

/-- Model of a fetch `Response`.  `body = none` models a body-less response. -/
structure Response where
  status : Nat
  headers : HeaderMap
  body : Option (List Item)
  url : String
deriving DecidableEq, Repr

/-- `response.ok`: status in the inclusive range 200..299. -/
def respOk (r : Response) : Bool :=
  decide (200 ≤ r.status) && decide (r.status ≤ 299)

/-- The markup an untouched element contributes to the output stream
(used when a body is read back with `response.text()`). -/
def serializeItem : Item → String
  | .text s => s
  | .includeTag (some src) => "<esi:include src=\"" ++ src ++ "\"/>"
  | .includeTag none => "<esi:include/>"

/-- `await response.text()` (empty string for a body-less response). -/
def responseText (r : Response) : String :=
  String.join ((r.body.getD []).map serializeItem)

/-- A parsed absolute URL; only the pieces the engine reads are kept. -/
structure ParsedUrl where
  href : String
  origin : String
deriving DecidableEq, Repr

/-- The WHATWG URL / URLPattern capabilities the engine consumes, as an
abstract collaborator: `parse s` is `new URL(s)` (`none` = throws),
`resolve src base` is `new URL(src, base)`, and `compile s` is
`new URLPattern(s)` (`none` = the constructor throws). -/
structure UrlApi where
  parse : String → Option ParsedUrl
  resolve : String → String → Option ParsedUrl
  compile : String → Option (ParsedUrl → Bool)

/-- Whether a List Char begins with `content` `\s*` `=` `\s*` `"esi/1.0"`;
input is assumed already lower-cased. -/
def esiDirectiveAt (cs : List Char) : Bool :=
  if ("content".data).isPrefixOf cs then
    match (cs.drop 7).dropWhile isWsChar with
    | '=' :: r2 => ("\"esi/1.0\"".data).isPrefixOf (r2.dropWhile isWsChar)
    | _ => false
  else false

/-- The test of the regular expression matching `content`, optional
whitespace, `=`, optional whitespace, `"ESI/1.0"`, case-insensitively,
anywhere in the value. -/
def regexContentEsi (s : String) : Bool :=
  ((lcStr s).data).tails.any esiDirectiveAt

/-- The case-insensitive substring test for the token `ESI/1.0`. -/
def containsEsi10 (s : String) : Bool :=
  ((lcStr s).data).tails.any (fun t => ("esi/1.0".data).isPrefixOf t)

/-- `hasEsiSurrogateControl(response, headerName)`: the configured control
header is present and its value matches the ESI delegation directive. -/
def hasEsiSurrogateControl (resp : Response) (headerName : String) : Bool :=
  match headerGet resp.headers headerName with
  | none => false
  | some surrogateControl => regexContentEsi surrogateControl

/-- `hasAllowedContentType(response, allowedContentTypes)`: the media-type
portion of Content-Type (before `;`, trimmed, lower-cased) equals some
entry of the allow-list, case-insensitively.  Absent header: false. -/
def hasAllowedContentType (resp : Response) (allowedContentTypes : List String) : Bool :=
  match headerGet resp.headers "Content-Type" with
  | none => false
  | some contentType =>
      let mimeType := lcStr (jsTrim (beforeSemi contentType))
      allowedContentTypes.any (fun allowed => lcStr allowed == mimeType)

/-- `addSurrogateCapability(request, "ESI/1.0")`: append the
`cloudflare-workers="ESI/1.0"` capability entry to any existing
Surrogate-Capability value, comma-joined, or set it fresh. -/
def addSurrogateCapability (request : Request) : Request :=
  let capability := "cloudflare-workers=\"ESI/1.0\""
  let value :=
    match headerGet request.headers "Surrogate-Capability" with
    | some existing => existing ++ ", " ++ capability
    | none => capability
  { request with headers := headersSet request.headers "Surrogate-Capability" value }

/-- `matchesUrlPattern(url, patterns)` of the current `Esi` implementation:
patterns are compiled `URLPattern` objects (modelled by their `test`
predicate); a candidate that does not parse as a URL yields false. -/
def matchesUrlPattern (api : UrlApi) (url : String) (patterns : List (ParsedUrl → Bool)) : Bool :=
  match api.parse url with
  | none => false
  | some urlObj => patterns.any (fun pattern => pattern urlObj)

/-- Model of `new URLPattern()` with no arguments: every component is a
wildcard, so it tests true on every URL (the constructor default for the
`allowedUrlPatterns` option). -/
def wildcardPattern : ParsedUrl → Bool := fun _ => true

/-- The `surrogateDelegation` option: `false`, `true`, or an IP allow-list. -/
inductive DelegationOpt where
  | off
  | on
  | ipAllowList (ips : List String)

/-- `shouldDelegateToSurrogate(request, surrogateDelegation)`. -/
def shouldDelegateToSurrogate (request : Request) (d : DelegationOpt) : Bool :=
  match d with
  | .off => false
  | .on =>
      match headerGet request.headers "Surrogate-Capability" with
      | none => false
      | some v => containsEsi10 v
  | .ipAllowList ips =>
      match headerGet request.headers "Surrogate-Capability" with
      | none => false
      | some v =>
          if containsEsi10 v then
            match headerGet request.headers "CF-Connecting-IP" with
            | none => false
            | some ip => ips.contains ip
          else false

/-- What an `onError(error, element)` handler does to the failed element:
remove it, replace it with markup, or leave it untouched (the handler is a
void callback acting directly on the element). -/
inductive ErrAction where
  | remove
  | replaceWith (s : String)
  | keep

/-- The default `onError`: `element.remove(); log(error)`. -/
def defaultOnError : String → ErrAction := fun _ => ErrAction.remove

/-- Resolved configuration of the `Esi` class (constructor output).
`shim` only renames the selector and is not modelled. -/
structure EsiOptions where
  contentTypes : List String
  maxDepth : Nat
  allowedUrlPatterns : List (ParsedUrl → Bool)
  onError : String → ErrAction
  surrogateDelegation : DelegationOpt
  surrogateControlHeader : String

/-- Events recorded while processing: each network fetch (with the length of
the ancestor-request context at the call to `this.fetch`) and each
invocation of the error handler. -/
inductive Event where
  | fetch (url : String) (ctxLen : Nat)
  | errObserved (msg : String) (ctxLen : Nat)
deriving DecidableEq, Repr

/-- Message of the error thrown for a missing `src` attribute. -/
def msgSrcRequired : String := "ESI include src attribute is required"

/-- Message of the `TypeError` thrown by `new URL` on unresolvable input. -/
def msgInvalidUrl : String := "Invalid URL"

/-- Message of the error thrown when the URL policy rejects an include. -/
def msgNotAllowed : String := "ESI include URL not allowed"

/-- Message of the error thrown for a non-2xx include response. -/
def msgNotOk : String := "ESI include response not OK"

/-- Lines 185-190 of the current implementation: resolve the include URL
against the parent request's URL, then build the outbound request,
inheriting the parent's headers exactly when the resolved URL is
same-origin with the parent and starting header-less otherwise.
`none` models the `TypeError` thrown by `new URL`. -/
def buildEsiRequest (api : UrlApi) (parent : Request) (src : String) : Option Request :=
  match api.resolve src parent.url, api.parse parent.url with
  | some esiUrl, some parentUrl =>
      some { url := esiUrl.href
             headers := if parentUrl.origin == esiUrl.origin then parent.headers else [] }
  | _, _ => none

/-- Apply the effect of the error handler to the failed element
(`remove` deletes it, `replaceWith` substitutes markup, `keep` leaves it). -/
def applyErrAction (action : ErrAction) (src : Option String) : List Item :=
  match action with
  | .remove => []
  | .replaceWith s => [Item.text s]
  | .keep => [Item.includeTag src]

/-- The body of `onEsiElement` up to `element.replace`: read `src`, build the
outbound request, consult the URL policy, fetch (through the supplied
fetch continuation, which models `this.fetch(esiRequest, context)`), check
`response.ok`, and read the replacement text.  An `Except.error` is an
exception travelling to the handler boundary; the event list carries the
fetches that already happened on the way. -/
def resolveInclude (cfg : EsiOptions) (api : UrlApi)
    (fetchRec : Request → Response × List Event)
    (parent : Request) (src : Option String) :
    Except String String × List Event :=
  match src with
  | none => (.error msgSrcRequired, [])
  | some srcVal =>
      match buildEsiRequest api parent srcVal with
      | none => (.error msgInvalidUrl, [])
      | some esiRequest =>
          if matchesUrlPattern api esiRequest.url cfg.allowedUrlPatterns then
            let fetched := fetchRec esiRequest
            if respOk fetched.1 then (.ok (responseText fetched.1), fetched.2)
            else (.error msgNotOk, fetched.2)
          else (.error msgNotAllowed, [])

/-- The element callback registered on the rewriter: `onEsiElement` wrapped
in try/catch, with any exception routed to `this.onError(error, element)`;
the handler's effect on the element decides what remains in the stream. -/
def handleElement (cfg : EsiOptions) (api : UrlApi)
    (fetchRec : Request → Response × List Event)
    (parent : Request) (ctxLen : Nat) (src : Option String) :
    List Item × List Event :=
  match resolveInclude cfg api fetchRec parent src with
  | (.ok content, ev) => ([Item.text content], ev)
  | (.error msg, ev) =>
      (applyErrAction (cfg.onError msg) src, ev ++ [Event.errObserved msg ctxLen])

/-- The rewriter's traversal: text passes through; each include element is
handled independently, in document order. -/
def processItems (handle : Option String → List Item × List Event) :
    List Item → List Item × List Event
  | [] => ([], [])
  | Item.text s :: rest =>
      let tail := processItems handle rest
      (Item.text s :: tail.1, tail.2)
  | Item.includeTag src :: rest =>
      let here := handle src
      let tail := processItems handle rest
      (here.1 ++ tail.1, here.2 ++ tail.2)

/-- Lines 230-242: mutate the transformed response's headers -- force the
non-caching Cache-Control, strip the validators and Content-Length, and
drop the control-directive header -- and install the rewritten body. -/
def finalizeResponse (cfg : EsiOptions) (resp : Response) (outItems : List Item) : Response :=
  let h1 := headersSet resp.headers "Cache-Control" "private, max-age=0"
  let h2 := headersDelete h1 "Last-Modified"
  let h3 := headersDelete h2 "ETag"
  let h4 := headersDelete h3 "content-length"
  let h5 := headersDelete h4 cfg.surrogateControlHeader
  { resp with body := some outItems, headers := h5 }

/-- Recursion core of `Esi.parseResponse`, structurally recursive on
`gas := maxDepth + 2 - context.length`.  For a non-empty context this is
exactly the source's guard: `context.length - 1 > maxDepth` holds iff
`gas = 0` (see `parseGo_gas_zero_iff`), in which case the response is
returned untouched.  The fetch continuation inlines `Esi.fetch`: add the
capability header, call the global fetch, then parse the fetched response
with the context extended by the (capability-less) request. -/
def parseGo (cfg : EsiOptions) (api : UrlApi) (env : Request → Response) :
    Nat → Request → List Request → Response → Response × List Event
  | 0, _, _, resp => (resp, [])
  | Nat.succ gas, parent, ctx, resp =>
      if resp.body.isNone
          || shouldDelegateToSurrogate parent cfg.surrogateDelegation
          || !(hasEsiSurrogateControl resp cfg.surrogateControlHeader)
          || !(hasAllowedContentType resp cfg.contentTypes) then
        (resp, [])
      else
        let fetchRec := fun (request : Request) =>
          let networkResp := env (addSurrogateCapability request)
          let nested := parseGo cfg api env gas request (ctx ++ [request]) networkResp
          (nested.1, Event.fetch request.url ctx.length :: nested.2)
        let processed :=
          processItems (fun src => handleElement cfg api fetchRec parent ctx.length src)
            (resp.body.getD [])
        (finalizeResponse cfg resp processed.1, processed.2)

/-- `Esi.parseResponse(response, context)`: take the nearest ancestor from
the context (throwing when the chain is empty), enforce the depth bound,
gate on body presence, surrogate delegation, the control directive and the
content type, and otherwise rewrite the body and the headers. -/
def parseResponse (cfg : EsiOptions) (api : UrlApi) (env : Request → Response)
    (resp : Response) (ctx : List Request) : Except String (Response × List Event) :=
  match ctx.getLast? with
  | none => .error "Request context is required"
  | some parent => .ok (parseGo cfg api env (cfg.maxDepth + 2 - ctx.length) parent ctx resp)

/-- `Esi.fetch(request, context)`: attach the capability header, fetch, and
parse the result with the context extended by the original request. -/
def esiFetch (cfg : EsiOptions) (api : UrlApi) (env : Request → Response)
    (request : Request) (ctx : List Request) : Except String (Response × List Event) :=
  let networkResp := env (addSurrogateCapability request)
  match parseResponse cfg api env networkResp (ctx ++ [request]) with
  | .error m => .error m
  | .ok (r, ev) => .ok (r, Event.fetch request.url ctx.length :: ev)

/-- Sanity: for a non-empty context, the structural `gas = 0` case of
`parseGo` coincides exactly with the source's depth guard
`context.length - 1 > maxDepth`. -/
theorem parseGo_gas_zero_iff (cfg : EsiOptions) (ctx : List Request) (h : ctx ≠ []) :
    cfg.maxDepth + 2 - ctx.length = 0 ↔ ctx.length - 1 > cfg.maxDepth := by
  have hlen : 0 < ctx.length := List.length_pos.mpr h
  omega

/-- Origin (scheme + host) of an absolute `https://` URL string, used by the
concrete witness-level URL model. -/
def originOf (s : String) : Option String :=
  if ("https://".data).isPrefixOf s.data then
    some (String.mk ("https://".data ++ (s.data.drop 8).takeWhile (fun c => c ≠ '/')))
  else none

/-- Witness-level `new URL(s)`: accepts `https://host/...` strings. -/
def testParse (s : String) : Option ParsedUrl :=
  match originOf s with
  | some o => some { href := s, origin := o }
  | none => none

/-- Witness-level `new URL(src, base)`: absolute input is parsed as is; a
root-relative path is joined to the base's origin. -/
def testResolve (src base : String) : Option ParsedUrl :=
  match testParse src with
  | some u => some u
  | none =>
      if ("/".data).isPrefixOf src.data then
        match originOf base with
        | some o => testParse (o ++ src)
        | none => none
      else none

/-- Concrete URL collaborator for witnesses; its `URLPattern` compiler always
throws, exercising the string-pattern fallback. -/
def testUrlApi : UrlApi :=
  { parse := testParse, resolve := testResolve, compile := fun _ => none }

/-- A pattern of the earlier `parseEsi` variant: a compiled `URLPattern`
object or a plain string. -/
inductive UrlPatternOrString where
  | structured (test : ParsedUrl → Bool)
  | str (s : String)

/-- The per-pattern test of the earlier variant's `matchesUrlPattern`: a
`URLPattern` object is tested directly; a string is compiled to a
`URLPattern` first, falling back on a literal prefix match against the
pattern with its wildcard stripped when the constructor throws. -/
def patternMatches (api : UrlApi) (url : String) (urlObj : ParsedUrl) :
    UrlPatternOrString → Bool
  | .structured test => test urlObj
  | .str s =>
      match api.compile s with
      | some test => test urlObj
      | none => jsStartsWith url (replaceFirstStar s)

/-- `matchesUrlPattern(url, patterns)` of the earlier `parseEsi` variant
(string-or-URLPattern union; malformed candidate URLs yield false). -/
def matchesUrlPatternIdx (api : UrlApi) (url : String)
    (patterns : List UrlPatternOrString) : Bool :=
  match api.parse url with
  | none => false
  | some urlObj => patterns.any (patternMatches api url urlObj)

/-- The effective allow decision at the earlier variant's call site:
`if (patterns && patterns.length > 0) { if (!matchesUrlPattern(url, patterns)) reject }`,
so an unset (`none`) or empty list never rejects. -/
def isAllowedIdx (api : UrlApi) (patterns : Option (List UrlPatternOrString))
    (url : String) : Bool :=
  match patterns with
  | none => true
  | some ps => if ps.isEmpty then true else matchesUrlPatternIdx api url ps



theorem find?_append_of_none {α : Type} (p : α → Bool) (l1 l2 : List α)
    (h : l1.find? p = none) : (l1 ++ l2).find? p = l2.find? p := by
  induction l1 with
  | nil => rfl
  | cons a t ih =>
      by_cases ha : p a
      · rw [List.find?_cons_of_pos _ ha] at h
        exact absurd h (by simp)
      · rw [List.find?_cons_of_neg _ ha] at h
        rw [List.cons_append, List.find?_cons_of_neg _ ha]
        exact ih h

theorem find?_append_of_some {α : Type} (p : α → Bool) (l1 l2 : List α) (q : α)
    (h : l1.find? p = some q) : (l1 ++ l2).find? p = some q := by
  induction l1 with
  | nil => simp [List.find?] at h
  | cons a t ih =>
      by_cases ha : p a
      · rw [List.find?_cons_of_pos _ ha] at h
        rw [List.cons_append, List.find?_cons_of_pos _ ha]
        exact h
      · rw [List.find?_cons_of_neg _ ha] at h
        rw [List.cons_append, List.find?_cons_of_neg _ ha]
        exact ih h

theorem find?_filter_lc_eq (l : HeaderMap) (n m : String) (h : lcStr m = lcStr n) :
    (l.filter (fun p => lcStr p.1 != lcStr n)).find?
      (fun p => lcStr p.1 == lcStr m) = none := by
  induction l with
  | nil => rfl
  | cons p t ih =>
      by_cases hp : lcStr p.1 = lcStr n
      · rw [List.filter_cons_of_neg (by simp [hp])]
        exact ih
      · rw [List.filter_cons_of_pos (by simp [hp])]
        rw [List.find?_cons_of_neg _ (by simp [h]; exact hp)]
        exact ih

theorem find?_filter_lc_ne (l : HeaderMap) (n m : String) (h : lcStr m ≠ lcStr n) :
    (l.filter (fun p => lcStr p.1 != lcStr n)).find?
      (fun p => lcStr p.1 == lcStr m) =
      l.find? (fun p => lcStr p.1 == lcStr m) := by
  induction l with
  | nil => rfl
  | cons p t ih =>
      by_cases hp : lcStr p.1 = lcStr n
      · have hm : ¬ lcStr p.1 = lcStr m := by rw [hp]; exact fun hc => h hc.symm
        rw [List.filter_cons_of_neg (by simp [hp])]
        rw [List.find?_cons_of_neg _ (by simp [hm])]
        exact ih
      · rw [List.filter_cons_of_pos (by simp [hp])]
        by_cases hq : lcStr p.1 = lcStr m
        · rw [List.find?_cons_of_pos _ (by simp [hq]),
            List.find?_cons_of_pos _ (by simp [hq])]
        · rw [List.find?_cons_of_neg _ (by simp [hq]),
            List.find?_cons_of_neg _ (by simp [hq])]
          exact ih

theorem headerGet_headersSet (h : HeaderMap) (n v m : String) :
    headerGet (headersSet h n v) m =
      if lcStr m = lcStr n then some v else headerGet h m := by
  unfold headerGet headersSet
  by_cases hc : lcStr m = lcStr n
  · rw [if_pos hc, find?_append_of_none _ _ _ (find?_filter_lc_eq h n m hc)]
    rw [List.find?_cons_of_pos _ (by simp [hc])]
    rfl
  · rw [if_neg hc]
    cases hf : (h.filter (fun p => lcStr p.1 != lcStr n)).find?
        (fun p => lcStr p.1 == lcStr m) with
    | none =>
        rw [find?_append_of_none _ _ _ hf]
        rw [List.find?_cons_of_neg _ (by simp; exact fun hc2 => hc hc2.symm)]
        rw [find?_filter_lc_ne h n m hc] at hf
        rw [hf]
        rfl
    | some q =>
        have h2 : h.find? (fun p => lcStr p.1 == lcStr m) = some q := by
          rw [← find?_filter_lc_ne h n m hc]; exact hf
        rw [find?_append_of_some _ _ _ _ hf, h2]

theorem headerGet_headersDelete (h : HeaderMap) (n m : String) :
    headerGet (headersDelete h n) m =
      if lcStr m = lcStr n then none else headerGet h m := by
  unfold headerGet headersDelete
  by_cases hc : lcStr m = lcStr n
  · rw [if_pos hc, find?_filter_lc_eq h n m hc]
    rfl
  · rw [if_neg hc, find?_filter_lc_ne h n m hc]

theorem processItems_append (handle : Option String → List Item × List Event)
    (xs ys : List Item) :
    processItems handle (xs ++ ys) =
      ((processItems handle xs).1 ++ (processItems handle ys).1,
       (processItems handle xs).2 ++ (processItems handle ys).2) := by
  induction xs with
  | nil => simp [processItems]
  | cons x t ih =>
      cases x with
      | text s => simp [processItems, ih]
      | includeTag src => simp [processItems, ih]

theorem processItems_events_mem (handle : Option String → List Item × List Event)
    (P : Event → Prop) (hh : ∀ src, ∀ e ∈ (handle src).2, P e) :
    ∀ items, ∀ e ∈ (processItems handle items).2, P e := by
  intro items
  induction items with
  | nil => intro e he; simp [processItems] at he
  | cons x t ih =>
      intro e he
      cases x with
      | text s =>
          simp only [processItems] at he
          exact ih e he
      | includeTag src =>
          simp only [processItems] at he
          rcases List.mem_append.mp he with h1 | h2
          · exact hh src e h1
          · exact ih e h2

theorem resolveInclude_events (cfg : EsiOptions) (api : UrlApi)
    (fetchRec : Request → Response × List Event) (parent : Request)
    (src : Option String) (P : Event → Prop)
    (hf : ∀ req, ∀ e ∈ (fetchRec req).2, P e) :
    ∀ e ∈ (resolveInclude cfg api fetchRec parent src).2, P e := by
  intro e he
  simp only [resolveInclude] at he
  split at he
  · simp at he
  · split at he
    · simp at he
    · split at he
      · split at he
        · exact hf _ e he
        · exact hf _ e he
      · simp at he

theorem resolveInclude_error_msg (cfg : EsiOptions) (api : UrlApi)
    (fetchRec : Request → Response × List Event) (parent : Request)
    (src : Option String) (msg : String) (ev : List Event)
    (h : resolveInclude cfg api fetchRec parent src = (.error msg, ev)) :
    msg = msgSrcRequired ∨ msg = msgInvalidUrl ∨ msg = msgNotAllowed ∨ msg = msgNotOk := by
  simp only [resolveInclude] at h
  split at h
  · injection h with h1 h2
    injection h1 with h1
    exact Or.inl h1.symm
  · split at h
    · injection h with h1 h2
      injection h1 with h1
      exact Or.inr (Or.inl h1.symm)
    · split at h
      · split at h
        · injection h with h1 h2
          exact absurd h1 (by simp)
        · injection h with h1 h2
          injection h1 with h1
          exact Or.inr (Or.inr (Or.inr h1.symm))
      · injection h with h1 h2
        injection h1 with h1
        exact Or.inr (Or.inr (Or.inl h1.symm))

theorem handleElement_eq_of_ok (cfg : EsiOptions) (api : UrlApi)
    (fetchRec : Request → Response × List Event) (parent : Request)
    (ctxLen : Nat) (src : Option String) (content : String) (ev : List Event)
    (h : resolveInclude cfg api fetchRec parent src = (.ok content, ev)) :
    handleElement cfg api fetchRec parent ctxLen src = ([Item.text content], ev) := by
  unfold handleElement
  rw [h]

theorem handleElement_eq_of_error (cfg : EsiOptions) (api : UrlApi)
    (fetchRec : Request → Response × List Event) (parent : Request)
    (ctxLen : Nat) (src : Option String) (msg : String) (ev : List Event)
    (h : resolveInclude cfg api fetchRec parent src = (.error msg, ev)) :
    handleElement cfg api fetchRec parent ctxLen src =
      (applyErrAction (cfg.onError msg) src, ev ++ [Event.errObserved msg ctxLen]) := by
  unfold handleElement
  rw [h]

theorem handleElement_events (cfg : EsiOptions) (api : UrlApi)
    (fetchRec : Request → Response × List Event) (parent : Request)
    (ctxLen : Nat) (src : Option String) (P : Event → Prop)
    (hf : ∀ req, ∀ e ∈ (fetchRec req).2, P e)
    (herr : ∀ msg, msg = msgSrcRequired ∨ msg = msgInvalidUrl ∨
      msg = msgNotAllowed ∨ msg = msgNotOk → P (Event.errObserved msg ctxLen)) :
    ∀ e ∈ (handleElement cfg api fetchRec parent ctxLen src).2, P e := by
  cases hres : resolveInclude cfg api fetchRec parent src with
  | mk res ev =>
      have hsub : ∀ e ∈ ev, P e := by
        intro e he
        have hr := resolveInclude_events cfg api fetchRec parent src P hf e
        rw [hres] at hr
        exact hr he
      cases res with
      | ok content =>
          intro e he
          rw [handleElement_eq_of_ok cfg api fetchRec parent ctxLen src content ev hres] at he
          exact hsub e he
      | error msg =>
          intro e he
          rw [handleElement_eq_of_error cfg api fetchRec parent ctxLen src msg ev hres] at he
          rcases List.mem_append.mp he with h1 | h2
          · exact hsub e h1
          · rw [List.mem_singleton.mp h2]
            exact herr msg (resolveInclude_error_msg cfg api fetchRec parent src msg ev hres)

/-- Invariant satisfied by every recorded event: fetches are issued from
ancestor chains of length at most `maxDepth + 1`.  No constraint is placed
on observed errors: the real fetch collaborator may reject with arbitrary
errors that the element boundary routes to the handler, so the handler's
error vocabulary is open-ended. -/
def eventOk (maxD : Nat) : Event → Prop
  | .fetch _ ctxLen => ctxLen ≤ maxD + 1
  | .errObserved _ _ => True

theorem parseGo_events (cfg : EsiOptions) (api : UrlApi) (env : Request → Response) :
    ∀ gas parent ctx resp, gas = cfg.maxDepth + 2 - ctx.length →
    ∀ e ∈ (parseGo cfg api env gas parent ctx resp).2, eventOk cfg.maxDepth e := by
  intro gas
  induction gas with
  | zero =>
      intro parent ctx resp _ e he
      simp [parseGo] at he
  | succ g ih =>
      intro parent ctx resp hinv e he
      simp only [parseGo] at he
      split at he
      · simp at he
      · refine processItems_events_mem _ (eventOk cfg.maxDepth) ?_ (resp.body.getD []) e he
        intro src e2 he2
        refine handleElement_events cfg api _ parent ctx.length src
          (eventOk cfg.maxDepth) ?_ ?_ e2 he2
        · intro req e3 he3
          rcases List.mem_cons.mp he3 with h4 | h4
          · rw [h4]
            show ctx.length ≤ cfg.maxDepth + 1
            omega
          · refine ih req (ctx ++ [req]) (env (addSurrogateCapability req)) ?_ e3 h4
            simp only [List.length_append, List.length_singleton]
            omega
        · intro msg hm
          trivial

theorem getLast?_some_of_ne_nil (ctx : List Request) (h : ctx ≠ []) :
    ∃ parent, ctx.getLast? = some parent := by
  have hs : ctx.getLast?.isSome := List.getLast?_isSome.mpr h
  exact Option.isSome_iff_exists.mp hs

theorem parseResponse_depth_passthrough (cfg : EsiOptions) (api : UrlApi)
    (env : Request → Response) (resp : Response) (ctx : List Request)
    (hne : ctx ≠ []) (hd : ctx.length - 1 > cfg.maxDepth) :
    parseResponse cfg api env resp ctx = .ok (resp, []) := by
  obtain ⟨parent, hp⟩ := getLast?_some_of_ne_nil ctx hne
  unfold parseResponse
  rw [hp]
  have h0 : cfg.maxDepth + 2 - ctx.length = 0 := by
    have := List.length_pos.mpr hne
    omega
  rw [h0]
  rfl

theorem parseResponse_gate_passthrough (cfg : EsiOptions) (api : UrlApi)
    (env : Request → Response) (resp : Response) (ctx : List Request)
    (parent : Request) (hp : ctx.getLast? = some parent)
    (hgate : resp.body = none ∨
      shouldDelegateToSurrogate parent cfg.surrogateDelegation = true ∨
      hasEsiSurrogateControl resp cfg.surrogateControlHeader = false ∨
      hasAllowedContentType resp cfg.contentTypes = false) :
    parseResponse cfg api env resp ctx = .ok (resp, []) := by
  unfold parseResponse
  rw [hp]
  cases hgas : cfg.maxDepth + 2 - ctx.length with
  | zero => rfl
  | succ g =>
      have hcond : (resp.body.isNone
          || shouldDelegateToSurrogate parent cfg.surrogateDelegation
          || !(hasEsiSurrogateControl resp cfg.surrogateControlHeader)
          || !(hasAllowedContentType resp cfg.contentTypes)) = true := by
        rcases hgate with h | h | h | h <;> simp [h]
      simp [parseGo, hcond]

/-- Root request used by concrete witnesses. -/
def rootReq : Request := { url := "https://h/root", headers := [] }

/-- Constructor-default configuration of the `Esi` class. -/
def cfgDefault : EsiOptions :=
  { contentTypes := ["text/html"]
    maxDepth := 3
    allowedUrlPatterns := [wildcardPattern]
    onError := defaultOnError
    surrogateDelegation := DelegationOpt.off
    surrogateControlHeader := "Surrogate-Control" }

/-- An environment whose every fetch yields a plain 404 response. -/
def envNone : Request → Response := fun req =>
  { status := 404, headers := [], body := some [Item.text "Not found"], url := req.url }

/-- C9: calling `parseResponse` with an empty ancestor-request chain throws
`Request context is required` before any gating or body processing, for
every response; a non-empty chain is a precondition of all processing. -/
theorem c9_empty_context_throws (cfg : EsiOptions) (api : UrlApi)
    (env : Request → Response) (resp : Response) :
    parseResponse cfg api env resp [] = .error "Request context is required" := rfl

/-- C3: for every response that lacks the Surrogate-Control delegation
directive, or has an ineligible content type, or has no body,
`parseResponse` returns the identical response (the very same value, with
an empty event trace -- nothing is fetched or rewritten). -/
theorem c3_passthrough_identity (cfg : EsiOptions) (api : UrlApi)
    (env : Request → Response) (ctx : List Request) (resp : Response)
    (hne : ctx ≠ [])
    (hgate : resp.body = none ∨
      hasEsiSurrogateControl resp cfg.surrogateControlHeader = false ∨
      hasAllowedContentType resp cfg.contentTypes = false) :
    parseResponse cfg api env resp ctx = .ok (resp, []) := by
  obtain ⟨parent, hp⟩ := getLast?_some_of_ne_nil ctx hne
  refine parseResponse_gate_passthrough cfg api env resp ctx parent hp ?_
  rcases hgate with h | h | h
  · exact Or.inl h
  · exact Or.inr (Or.inr (Or.inl h))
  · exact Or.inr (Or.inr (Or.inr h))

/-- A response without the Surrogate-Control header. -/
def respPlain : Response :=
  { status := 200
    headers := [("Content-Type", "text/html")]
    body := some [Item.includeTag (some "https://h/frag")]
    url := "https://h/root" }

/-- Witness for C3: a concrete response without the control directive is
returned as is. -/
theorem c3_passthrough_identity_witness :
    parseResponse cfgDefault testUrlApi envNone respPlain [rootReq] = .ok (respPlain, []) :=
  c3_passthrough_identity cfgDefault testUrlApi envNone [rootReq] respPlain
    (List.cons_ne_nil _ _) (Or.inr (Or.inl (by decide)))

/-- C7: the content-type gate holds iff the Content-Type header is present
and its media-type portion (before the first `;`, trimmed, lower-cased)
equals some allow-list entry case-insensitively. -/
theorem c7_content_type_check (resp : Response) (allowed : List String) :
    hasAllowedContentType resp allowed = true ↔
      ∃ ct, headerGet resp.headers "Content-Type" = some ct ∧
        ∃ a ∈ allowed, lcStr a = lcStr (jsTrim (beforeSemi ct)) := by
  unfold hasAllowedContentType
  cases hct : headerGet resp.headers "Content-Type" with
  | none => simp
  | some ct => simp [List.any_eq_true]

/-- C10 counterexample: with an explicitly empty `allowedUrlPatterns` list
the current implementation rejects the include -- the URL is never
fetched (no fetch event; a `not allowed` error is observed instead), so
the empty URL pattern list is not fail-open. -/
def cfgEmptyPat : EsiOptions := { cfgDefault with allowedUrlPatterns := [] }

/-- A processable response (control directive and eligible content type)
holding a single include. -/
def respOneInclude : Response :=
  { status := 200
    headers := [("Content-Type", "text/html"),
                ("Surrogate-Control", "content=\"ESI/1.0\"")]
    body := some [Item.includeTag (some "https://h/frag")]
    url := "https://h/root" }

/-- C10: counterexample to the parenthetical -- the empty URL pattern list
is not fail-open in the current implementation: the include's URL is not
fetched (the trace holds no fetch event, only the policy rejection). -/
theorem c10_counterexample :
    (parseResponse cfgEmptyPat testUrlApi envNone respOneInclude [rootReq]).toOption.map
        (fun p => p.2) =
      some [Event.errObserved msgNotAllowed 1] := by decide

/-- C10 (amended): an empty `contentTypes` list makes the eligibility gate
false for every response, so the engine returns every response unchanged
and never processes an include; the contrast with the URL pattern list
fails, though -- an explicitly empty pattern list is fail-closed (it
rejects every URL, see the counterexample), only the unset default (a
single wildcard pattern) allows all URLs. -/
theorem c10_empty_content_types_amended (cfg : EsiOptions) (api : UrlApi)
    (env : Request → Response) (ctx : List Request) (resp : Response)
    (hct : cfg.contentTypes = []) (hne : ctx ≠ []) :
    hasAllowedContentType resp cfg.contentTypes = false ∧
    parseResponse cfg api env resp ctx = .ok (resp, []) := by
  have h1 : hasAllowedContentType resp cfg.contentTypes = false := by
    rw [hct]
    unfold hasAllowedContentType
    cases headerGet resp.headers "Content-Type" <;> simp
  refine ⟨h1, ?_⟩
  obtain ⟨parent, hp⟩ := getLast?_some_of_ne_nil ctx hne
  exact parseResponse_gate_passthrough cfg api env resp ctx parent hp
    (Or.inr (Or.inr (Or.inr h1)))

/-- Configuration with an empty content-type allow-list. -/
def cfgNoCt : EsiOptions := { cfgDefault with contentTypes := [] }

/-- Witness for the amended C10: a concrete processable-looking response is
passed through untouched when `contentTypes` is empty. -/
theorem c10_empty_content_types_amended_witness :
    hasAllowedContentType respOneInclude cfgNoCt.contentTypes = false ∧
    parseResponse cfgNoCt testUrlApi envNone respOneInclude [rootReq] =
      .ok (respOneInclude, []) :=
  c10_empty_content_types_amended cfgNoCt testUrlApi envNone [rootReq] respOneInclude
    rfl (List.cons_ne_nil _ _)

/-- C4: counterexample -- the current implementation's URL-policy check on
an explicitly empty pattern list returns false (rejecting the URL), not
true, so an empty list is not fail-open. -/
theorem c4_url_policy_counterexample :
    matchesUrlPattern testUrlApi "https://example.com/a" [] = false := by decide

/-- C4 (amended): the check is a logical OR over the pattern list in both
variants; the `parseEsi` variant's call site makes an unset or empty list
fail-open; in the current `Esi` variant an unset list defaults to a single
wildcard pattern (allowing every parsable URL) but an explicitly empty
list rejects every URL. -/
theorem c4_url_policy_amended (api : UrlApi) (url : String)
    (ps : List UrlPatternOrString) (qs : List (ParsedUrl → Bool)) :
    (isAllowedIdx api none url = true) ∧
    (isAllowedIdx api (some []) url = true) ∧
    (ps ≠ [] → isAllowedIdx api (some ps) url = matchesUrlPatternIdx api url ps) ∧
    (matchesUrlPatternIdx api url ps = true ↔
      ∃ u, api.parse url = some u ∧ ∃ p ∈ ps, patternMatches api url u p = true) ∧
    (matchesUrlPattern api url qs = true ↔
      ∃ u, api.parse url = some u ∧ ∃ q ∈ qs, q u = true) ∧
    ((api.parse url).isSome → matchesUrlPattern api url [wildcardPattern] = true) ∧
    (matchesUrlPattern api url [] = false) := by
  refine ⟨rfl, rfl, ?_, ?_, ?_, ?_, ?_⟩
  · intro hne
    cases ps with
    | nil => exact absurd rfl hne
    | cons a t => rfl
  · unfold matchesUrlPatternIdx
    cases hp : api.parse url with
    | none => simp
    | some u => simp [List.any_eq_true]
  · unfold matchesUrlPattern
    cases hp : api.parse url with
    | none => simp
    | some u => simp [List.any_eq_true]
  · intro hs
    unfold matchesUrlPattern
    cases hp : api.parse url with
    | none => rw [hp] at hs; exact absurd hs (by simp)
    | some u => simp [wildcardPattern]
  · unfold matchesUrlPattern
    cases hp : api.parse url with
    | none => rfl
    | some u => rfl

/-- Witness for the amended C4: a non-empty string-pattern list at the
`parseEsi` call site reduces to the OR-check, evaluated concretely. -/
theorem c4_url_policy_amended_witness :
    isAllowedIdx testUrlApi (some [UrlPatternOrString.str "https://a*"]) "https://a/b" =
      matchesUrlPatternIdx testUrlApi "https://a/b" [UrlPatternOrString.str "https://a*"] :=
  (c4_url_policy_amended testUrlApi "https://a/b"
    [UrlPatternOrString.str "https://a*"] []).2.2.1 (List.cons_ne_nil _ _)

/-- C8: a plain-string pattern whose `URLPattern` compilation throws falls
back, for every parsable candidate URL, to a literal prefix match of the
URL against the pattern with its wildcard character stripped. -/
theorem c8_string_pattern_fallback (api : UrlApi) (url s : String) (u : ParsedUrl)
    (hc : api.compile s = none) (hp : api.parse url = some u) :
    matchesUrlPatternIdx api url [UrlPatternOrString.str s] =
      jsStartsWith url (replaceFirstStar s) := by
  unfold matchesUrlPatternIdx
  rw [hp]
  simp [patternMatches, hc]

/-- Witness for C8: `https://a/bc` matches the uncompilable string pattern
`https://a/b*` via the prefix fallback. -/
theorem c8_string_pattern_fallback_witness :
    matchesUrlPatternIdx testUrlApi "https://a/bc" [UrlPatternOrString.str "https://a/b*"] = true := by
  rw [c8_string_pattern_fallback testUrlApi "https://a/bc" "https://a/b*"
    { href := "https://a/bc", origin := "https://a" } rfl (by decide)]
  decide

/-- C5: the outbound include request inherits the parent's headers when the
resolved URL is same-origin with the parent; for a cross-origin URL it is
constructed with empty headers, and the construction does not depend on
the parent's headers at all (non-interference). -/
theorem c5_header_inheritance (api : UrlApi) (parent : Request) (src : String)
    (esiUrl parentUrl : ParsedUrl)
    (hres : api.resolve src parent.url = some esiUrl)
    (hpar : api.parse parent.url = some parentUrl) :
    (parentUrl.origin = esiUrl.origin →
      buildEsiRequest api parent src =
        some { url := esiUrl.href, headers := parent.headers }) ∧
    (parentUrl.origin ≠ esiUrl.origin →
      buildEsiRequest api parent src = some { url := esiUrl.href, headers := [] } ∧
      ∀ h2 : HeaderMap,
        buildEsiRequest api { url := parent.url, headers := h2 } src =
          some { url := esiUrl.href, headers := [] }) := by
  constructor
  · intro hsame
    unfold buildEsiRequest
    rw [hres, hpar]
    simp [hsame]
  · intro hdiff
    have hne : (parentUrl.origin == esiUrl.origin) = false := by
      simp [hdiff]
    constructor
    · unfold buildEsiRequest
      rw [hres, hpar]
      simp [hne]
    · intro h2
      unfold buildEsiRequest
      simp only
      rw [hres, hpar]
      simp [hne]

/-- Witness for C5: a cross-origin include from a parent carrying a cookie
header is constructed with empty headers. -/
theorem c5_header_inheritance_witness :
    buildEsiRequest testUrlApi
        { url := "https://a/page", headers := [("Cookie", "secret")] } "https://b/x" =
      some { url := "https://b/x", headers := [] } :=
  ((c5_header_inheritance testUrlApi
      { url := "https://a/page", headers := [("Cookie", "secret")] } "https://b/x"
      { href := "https://b/x", origin := "https://b" }
      { href := "https://a/page", origin := "https://a" }
      (by decide) (by decide)).2 (by decide)).1

/-- Depth-limit configuration with `maxDepth := 0`. -/
def cfgDepth0 : EsiOptions := { cfgDefault with maxDepth := 0 }

/-- Level-1 fragment: carries the control directive and a nested include. -/
def respLevel1 : Response :=
  { status := 200
    headers := [("Content-Type", "text/html"),
                ("Surrogate-Control", "content=\"ESI/1.0\"")]
    body := some [Item.text "A1", Item.includeTag (some "https://h/b")]
    url := "https://h/a" }

/-- Root document with one include pointing at the level-1 fragment. -/
def respChainRoot : Response :=
  { status := 200
    headers := [("Content-Type", "text/html"),
                ("Surrogate-Control", "content=\"ESI/1.0\"")]
    body := some [Item.text "X", Item.includeTag (some "https://h/a")]
    url := "https://h/root" }

/-- Environment serving the two-level include chain. -/
def envChain : Request → Response := fun req =>
  if req.url = "https://h/a" then respLevel1
  else { status := 404, headers := [], body := some [Item.text "nf"], url := req.url }

/-- C1: counterexample.  A two-level include chain processed with
`maxDepth = 0` still issues the first include fetch (the trace holds
exactly the fetch of `https://h/a`, issued from a chain of length 1), and
the error handler observes no recursion-depth failure at all (no error
event in the trace): the depth check runs inside the recursive
`parseResponse` on the already-fetched response, after the network call,
and silently passes the over-limit response through. -/
theorem c1_depth_counterexample :
    (parseResponse cfgDepth0 testUrlApi envChain respChainRoot [rootReq]).toOption.map
        (fun p => (p.1.body, p.2)) =
      some (some [Item.text "X",
        Item.text "A1<esi:include src=\"https://h/b\"/>"],
        [Event.fetch "https://h/a" 1]) := by decide

/-- C1 (amended): the depth bound is enforced after the fetch, inside the
recursive `parseResponse` call on the fetched response: a context already
past the limit is passed through untouched with an empty trace -- the
depth path invokes neither the fetch collaborator nor the error handler,
so there is no recursion-depth error site and the handler never observes
a depth failure; and in every run each fetch is issued from an ancestor
chain of length at most `maxDepth + 1` -- so the `maxDepth + 2`-th nested
fetch never occurs, while the `maxDepth + 1`-th one does. -/
theorem c1_depth_amended (cfg : EsiOptions) (api : UrlApi) (env : Request → Response)
    (ctx : List Request) (resp : Response) :
    (ctx ≠ [] → ctx.length - 1 > cfg.maxDepth →
      parseResponse cfg api env resp ctx = .ok (resp, [])) ∧
    (∀ out ev, parseResponse cfg api env resp ctx = .ok (out, ev) →
      ∀ u d, Event.fetch u d ∈ ev → d ≤ cfg.maxDepth + 1) := by
  constructor
  · exact fun hne hd => parseResponse_depth_passthrough cfg api env resp ctx hne hd
  · intro out ev hok u d hmem
    unfold parseResponse at hok
    cases hl : ctx.getLast? with
    | none => rw [hl] at hok; exact absurd hok (by simp)
    | some parent =>
        rw [hl] at hok
        injection hok with hok
        have hev := congrArg Prod.snd hok
        simp only at hev
        rw [← hev] at hmem
        exact parseGo_events cfg api env (cfg.maxDepth + 2 - ctx.length) parent ctx resp
          rfl (Event.fetch u d) hmem

/-- Witness for the amended C1: a chain of length 2 with `maxDepth = 0` is
already past the limit and is passed through untouched. -/
theorem c1_depth_amended_witness :
    parseResponse cfgDepth0 testUrlApi envChain respLevel1
        [rootReq, { url := "https://h/a", headers := [] }] = .ok (respLevel1, []) :=
  (c1_depth_amended cfgDepth0 testUrlApi envChain
    [rootReq, { url := "https://h/a", headers := [] }] respLevel1).1
    (List.cons_ne_nil _ _) (by decide)

/-- Configuration whose error handler is a no-op callback (a legal
`onError`: it touches neither the element nor anything else). -/
def cfgKeep : EsiOptions := { cfgDefault with onError := fun _ => ErrAction.keep }

/-- C2: counterexample.  With a configured handler that is a no-op void
callback, a failing include (HTTP 404) invokes the handler -- whose
return value is empty (it is a void function) -- yet the element is
neither removed nor replaced: it survives in the output body.  The
handler's result does not determine the outcome in the current
implementation; the handler must mutate the element itself. -/
theorem c2_error_handler_counterexample :
    (parseResponse cfgKeep testUrlApi envNone respOneInclude [rootReq]).toOption.map
        (fun p => (p.1.body, p.2)) =
      some (some [Item.includeTag (some "https://h/frag")],
        [Event.fetch "https://h/frag" 1, Event.errObserved msgNotOk 1]) := by decide

/-- C2 (amended): every failure of include resolution (missing source,
unresolvable URL, disallowed URL, non-OK response) is caught at that
directive's boundary and routed to the configured `onError(error,
element)` handler exactly once; the handler acts on the live element
directly and its effect on the element is the element's outcome (the
default handler removes it); document processing itself never fails for a
non-empty context, and sibling directives are processed independently. -/
theorem c2_error_boundary_amended (cfg : EsiOptions) (api : UrlApi)
    (env : Request → Response) :
    (∀ resp ctx, ctx ≠ [] → ∃ p, parseResponse cfg api env resp ctx = .ok p) ∧
    (∀ fetchRec parent ctxLen src msg ev,
      resolveInclude cfg api fetchRec parent src = (.error msg, ev) →
      handleElement cfg api fetchRec parent ctxLen src =
        (applyErrAction (cfg.onError msg) src, ev ++ [Event.errObserved msg ctxLen])) ∧
    (∀ msg src, applyErrAction (defaultOnError msg) src = []) ∧
    (∀ handle xs ys, processItems handle (xs ++ ys) =
      ((processItems handle xs).1 ++ (processItems handle ys).1,
       (processItems handle xs).2 ++ (processItems handle ys).2)) := by
  refine ⟨?_, ?_, ?_, ?_⟩
  · intro resp ctx hne
    obtain ⟨parent, hp⟩ := getLast?_some_of_ne_nil ctx hne
    refine ⟨parseGo cfg api env (cfg.maxDepth + 2 - ctx.length) parent ctx resp, ?_⟩
    unfold parseResponse
    rw [hp]
  · intro fetchRec parent ctxLen src msg ev h
    exact handleElement_eq_of_error cfg api fetchRec parent ctxLen src msg ev h
  · intro msg src
    rfl
  · exact processItems_append

/-- Witness for the amended C2: the run of the counterexample configuration
never aborts (a `.ok` result exists for the non-empty chain). -/
theorem c2_error_boundary_amended_witness :
    ∃ p, parseResponse cfgKeep testUrlApi envNone respOneInclude [rootReq] = .ok p :=
  (c2_error_boundary_amended cfgKeep testUrlApi envNone).1 respOneInclude [rootReq]
    (List.cons_ne_nil _ _)

theorem finalizeResponse_headerGet (cfg : EsiOptions) (resp : Response)
    (outItems : List Item) (name : String) :
    headerGet (finalizeResponse cfg resp outItems).headers name =
      if lcStr name = lcStr cfg.surrogateControlHeader then none
      else if lcStr name = lcStr "content-length" then none
      else if lcStr name = lcStr "ETag" then none
      else if lcStr name = lcStr "Last-Modified" then none
      else if lcStr name = lcStr "Cache-Control" then some "private, max-age=0"
      else headerGet resp.headers name := by
  unfold finalizeResponse
  simp only [headerGet_headersDelete, headerGet_headersSet]

theorem parseGo_succ_shape (cfg : EsiOptions) (api : UrlApi) (env : Request → Response)
    (g : Nat) (parent : Request) (ctx : List Request) (resp : Response)
    (hcond : (resp.body.isNone
      || shouldDelegateToSurrogate parent cfg.surrogateDelegation
      || !(hasEsiSurrogateControl resp cfg.surrogateControlHeader)
      || !(hasAllowedContentType resp cfg.contentTypes)) = false) :
    ∃ outItems ev, parseGo cfg api env (g + 1) parent ctx resp =
      (finalizeResponse cfg resp outItems, ev) := by
  have hrw : parseGo cfg api env (g + 1) parent ctx resp
      = parseGo cfg api env (g + 1) parent ctx resp := rfl
  conv_rhs at hrw =>
    simp only [parseGo]
    rw [if_neg (show ¬ (resp.body.isNone
      || shouldDelegateToSurrogate parent cfg.surrogateDelegation
      || !(hasEsiSurrogateControl resp cfg.surrogateControlHeader)
      || !(hasAllowedContentType resp cfg.contentTypes)) = true by simp [hcond])]
  exact ⟨_, _, hrw⟩

/-- C6: on every processed response (depth in bound, body present, no
delegation, control directive and eligible content type), the result's
headers carry the non-caching `Cache-Control: private, max-age=0`, lack
`ETag`, `Last-Modified`, `Content-Length` and the control-directive
header, and agree with the original response on every other header name;
the status is preserved.  (The hypothesis that the configured control
header is not itself `Cache-Control` rules out the degenerate collision in
which the final delete would remove the just-set cache directive.) -/
theorem c6_header_rewrite (cfg : EsiOptions) (api : UrlApi) (env : Request → Response)
    (ctx : List Request) (resp : Response) (parent : Request) (items : List Item)
    (hp : ctx.getLast? = some parent)
    (hdepth : ctx.length ≤ cfg.maxDepth + 1)
    (hbody : resp.body = some items)
    (hdel : shouldDelegateToSurrogate parent cfg.surrogateDelegation = false)
    (hctl : hasEsiSurrogateControl resp cfg.surrogateControlHeader = true)
    (hct : hasAllowedContentType resp cfg.contentTypes = true)
    (hname : lcStr cfg.surrogateControlHeader ≠ lcStr "Cache-Control") :
    ∃ out ev, parseResponse cfg api env resp ctx = .ok (out, ev) ∧
      headerGet out.headers "Cache-Control" = some "private, max-age=0" ∧
      headerGet out.headers "ETag" = none ∧
      headerGet out.headers "Last-Modified" = none ∧
      headerGet out.headers "Content-Length" = none ∧
      headerGet out.headers cfg.surrogateControlHeader = none ∧
      (∀ name, lcStr name ≠ lcStr "Cache-Control" → lcStr name ≠ lcStr "ETag" →
        lcStr name ≠ lcStr "Last-Modified" → lcStr name ≠ lcStr "Content-Length" →
        lcStr name ≠ lcStr cfg.surrogateControlHeader →
        headerGet out.headers name = headerGet resp.headers name) ∧
      out.status = resp.status := by
  have hlen : 0 < ctx.length := by
    cases ctx with
    | nil => simp at hp
    | cons a t => simp
  obtain ⟨g, hg⟩ : ∃ g, cfg.maxDepth + 2 - ctx.length = g + 1 :=
    ⟨cfg.maxDepth + 1 - ctx.length, by omega⟩
  have hcond : (resp.body.isNone
      || shouldDelegateToSurrogate parent cfg.surrogateDelegation
      || !(hasEsiSurrogateControl resp cfg.surrogateControlHeader)
      || !(hasAllowedContentType resp cfg.contentTypes)) = false := by
    simp [hbody, hdel, hctl, hct]
  obtain ⟨outItems, ev, hshape⟩ :=
    parseGo_succ_shape cfg api env g parent ctx resp hcond
  refine ⟨finalizeResponse cfg resp outItems, ev, ?_, ?_, ?_, ?_, ?_, ?_, ?_, rfl⟩
  · unfold parseResponse
    rw [hp, hg]
    show Except.ok (parseGo cfg api env (g + 1) parent ctx resp) =
      Except.ok ((finalizeResponse cfg resp outItems, ev) : Response × List Event)
    rw [hshape]
  · rw [finalizeResponse_headerGet]
    rw [if_neg (fun hc => hname hc.symm), if_neg (by decide), if_neg (by decide),
      if_neg (by decide), if_pos rfl]
  · rw [finalizeResponse_headerGet]
    by_cases hc : lcStr "ETag" = lcStr cfg.surrogateControlHeader
    · rw [if_pos hc]
    · rw [if_neg hc, if_neg (by decide), if_pos rfl]
  · rw [finalizeResponse_headerGet]
    by_cases hc : lcStr "Last-Modified" = lcStr cfg.surrogateControlHeader
    · rw [if_pos hc]
    · rw [if_neg hc, if_neg (by decide), if_neg (by decide), if_pos rfl]
  · rw [finalizeResponse_headerGet]
    by_cases hc : lcStr "Content-Length" = lcStr cfg.surrogateControlHeader
    · rw [if_pos hc]
    · rw [if_neg hc, if_pos (by decide)]
  · rw [finalizeResponse_headerGet]
    rw [if_pos rfl]
  · intro name hcc hetag hlm hcl hctlname
    rw [finalizeResponse_headerGet]
    rw [if_neg hctlname, if_neg (by
        intro hc
        exact hcl (hc.trans (by decide))),
      if_neg hetag, if_neg hlm, if_neg hcc]

/-- A processable response carrying validators, Content-Length, the control
directive and an unrelated custom header. -/
def respRich : Response :=
  { status := 200
    headers := [("Content-Type", "text/html"),
                ("Surrogate-Control", "content=\"ESI/1.0\""),
                ("ETag", "tag1"),
                ("Last-Modified", "yesterday"),
                ("Content-Length", "120"),
                ("X-Custom", "kept")]
    body := some [Item.text "hello"]
    url := "https://h/root" }

/-- Witness for C6: the concrete processed response gets the non-caching
Cache-Control, loses the validators, Content-Length and Surrogate-Control,
and keeps the rest. -/
theorem c6_header_rewrite_witness :
    ∃ out ev, parseResponse cfgDefault testUrlApi envNone respRich [rootReq] = .ok (out, ev) ∧
      headerGet out.headers "Cache-Control" = some "private, max-age=0" ∧
      headerGet out.headers "ETag" = none ∧
      headerGet out.headers "Last-Modified" = none ∧
      headerGet out.headers "Content-Length" = none ∧
      headerGet out.headers cfgDefault.surrogateControlHeader = none ∧
      (∀ name, lcStr name ≠ lcStr "Cache-Control" → lcStr name ≠ lcStr "ETag" →
        lcStr name ≠ lcStr "Last-Modified" → lcStr name ≠ lcStr "Content-Length" →
        lcStr name ≠ lcStr cfgDefault.surrogateControlHeader →
        headerGet out.headers name = headerGet respRich.headers name) ∧
      out.status = respRich.status :=
  c6_header_rewrite cfgDefault testUrlApi envNone [rootReq] respRich rootReq
    [Item.text "hello"] rfl (by decide) rfl (by decide) (by decide) (by decide) (by decide)
